import Mathlib

/-!
Shallow embedding of `script.js` (Vector FX landing page) for specification
checking.  Pure functions are translated directly; DOM/event-driven routines
are modelled as explicit state-passing functions whose inputs capture the
browser-supplied data (field values, fetch results, media-query flags,
intersection-observer entry batches) and whose outputs record the effects the
code performs (network requests, style mutations, scheduled timeouts,
announcements).
-/

namespace VectorFX

/-! ### Email validation (`isValidEmail`, script.js lines 156-160)

The source tests the regex
`^[a-zA-Z0-9.!#$%&'*+/=?^_`{|}~-]+@[a-zA-Z0-9](?:[a-zA-Z0-9-]{0,61}[a-zA-Z0-9])?(?:\.[a-zA-Z0-9](?:[a-zA-Z0-9-]{0,61}[a-zA-Z0-9])?)*$`
and additionally requires `email.length <= 254`.  Neither the local-part
class nor the domain classes contain `@`, and the label classes do not
contain `.`, so a string is in the regex language iff it has exactly one
`@`, the part before it is a nonempty string of local-part characters, and
the part after it splits on `.` into chunks each matching the label regex.
We embed the regex through that decomposition, using `List.splitOn` (which
cuts at every separator occurrence). -/

/-- Character class `[a-zA-Z0-9.!#$%&'*+/=?^_`{|}~-]` of the local part.
The special characters are listed by ASCII code:
`!`=33 `#`=35 `$`=36 `%`=37 `&`=38 `'`=39 `*`=42 `+`=43 `-`=45 `.`=46
`/`=47 `=`=61 `?`=63 `^`=94 `_`=95 backtick=96 `\x7b`=123 `|`=124
`\x7d`=125 `~`=126. -/
def isLocalChar (c : Char) : Bool :=
  c.isAlphanum ||
    [33, 35, 36, 37, 38, 39, 42, 43, 45, 46, 47, 61, 63, 94, 95, 96,
     123, 124, 125, 126].contains c.toNat

/-- Character class `[a-zA-Z0-9-]` used inside a domain label. -/
def isLabelChar (c : Char) : Bool :=
  c.isAlphanum || c = '-'

/-- The domain-label regex `[a-zA-Z0-9](?:[a-zA-Z0-9-]{0,61}[a-zA-Z0-9])?`:
one alphanumeric character, optionally followed by at most 61 characters of
`[a-zA-Z0-9-]` and a final alphanumeric character. -/
def labelMatch : List Char → Bool
  | [] => false
  | c :: rest =>
    c.isAlphanum &&
      (rest.isEmpty ||
        match rest.getLast? with
        | none => false
        | some d =>
            d.isAlphanum && decide (rest.dropLast.length ≤ 61) &&
              rest.dropLast.all isLabelChar)

/-- `emailRegex.test` on the character list of the input: exactly one `@`,
nonempty all-local-char part before it, and every `.`-separated chunk of the
part after it matches the label regex. -/
def emailRegexTest (s : List Char) : Bool :=
  match s.splitOn '@' with
  | [loc, dom] =>
      !loc.isEmpty && loc.all isLocalChar && (dom.splitOn '.').all labelMatch
  | _ => false

/-- `isValidEmail` (script.js lines 156-160): regex test plus the 254-length
cap. -/
def isValidEmail (email : String) : Bool :=
  emailRegexTest email.data && decide (email.length ≤ 254)

/-! ### Spec-side formulation of the address shape (for claim C1)

The specification describes the accepted language structurally: `local@domain`
where the domain is a dot-separated sequence of labels, each label
alphanumeric with internal hyphens and 1-63 characters long, with total
length at most 254.  The following predicates transcribe that wording; claim
C1 asks that `isValidEmail` decide exactly this language. -/

/-- A domain label per the spec: 1-63 characters, all alphanumeric or
hyphen, beginning and ending with an alphanumeric character (hyphens only
internal). -/
def SpecLabel (l : List Char) : Prop :=
  1 ≤ l.length ∧ l.length ≤ 63 ∧ (∀ c ∈ l, isLabelChar c = true) ∧
    (∀ c, l.head? = some c → c.isAlphanum = true) ∧
    (∀ c, l.getLast? = some c → c.isAlphanum = true)

/-- The spec's address shape: `local-part@domain` with a nonempty local part
of address characters, a domain that is a dot-separated nonempty sequence of
labels, and total length at most 254. -/
def SpecEmailShape (s : String) : Prop :=
  s.length ≤ 254 ∧
    ∃ loc labels, loc ≠ [] ∧ (∀ c ∈ loc, isLocalChar c = true) ∧
      labels ≠ [] ∧ (∀ l ∈ labels, SpecLabel l) ∧
      s.data = loc ++ '@' :: List.intercalate ['.'] labels

/-! ### Waitlist form submit handler (`handleFormSubmit`, lines 90-150)

The handler's interaction with the browser is modelled by its inputs (the
raw email field value, the outcome the `fetch` promise would deliver, and
the reduced-motion media query) and an output record of every externally
visible effect.  The initial state of the button is enabled / not busy /
original label, and the form is visible, so the returned record also
describes the final UI state reached on each path. -/

/-- JavaScript `String.prototype.trim` whitespace: tab (9), LF (10),
VT (11), FF (12), CR (13), space (32), NBSP (160), BOM (65279). -/
def isJsWhitespace (c : Char) : Bool :=
  [9, 10, 11, 12, 13, 32, 160, 65279].contains c.toNat

/-- `email.trim()`: strip leading and trailing whitespace. -/
def jsTrim (s : String) : String :=
  String.mk
    (((s.data.dropWhile isJsWhitespace).reverse.dropWhile isJsWhitespace).reverse)

/-- Outcome of the `fetch` call: resolved with `response.ok`, resolved with a
non-ok status (the code then throws `Form submission failed`), or rejected
with a network error. -/
inductive FetchResult
  | ok
  | httpError
  | networkError
  deriving DecidableEq

/-- The submit button's visible label: the original markup or the
`Joining...` loading state. -/
inductive ButtonLabel
  | original
  | joining
  deriving DecidableEq

/-- The three `announceToScreenReader` messages of the handler. -/
inductive Announcement
  | invalidEmail
  | success
  | submissionError
  deriving DecidableEq

/-- Externally visible effects and final UI state of one run of
`handleFormSubmit`. -/
structure SubmitOutcome where
  networkRequests : Nat
  shookEmailInput : Bool
  focusedEmailInput : Bool
  announcements : List Announcement
  buttonDisabled : Bool
  ariaBusy : Bool
  buttonLabel : ButtonLabel
  formHidden : Bool
  successShown : Bool
  confettiRun : Bool
  tracked : Option (String × List Char)
  deriving DecidableEq

/-- `handleFormSubmit` (script.js lines 90-150).  The email value is
trimmed; an empty or invalid value takes the shake/announce early return
with no network traffic.  Otherwise the button is disabled/busy/`Joining...`
and the form is POSTed: on `response.ok` the form is hidden, success is
shown and announced, confetti runs unless reduced motion is preferred, and
`trackEvent` receives `email.split('@')[1]`; on a non-ok status or a network
error the catch block re-enables the button, restores its label and
announces an error. -/
def handleFormSubmit (rawEmail : String) (fetch : FetchResult)
    (reducedMotion : Bool) : SubmitOutcome :=
  let email := jsTrim rawEmail
  if email.isEmpty || !isValidEmail email then
    { networkRequests := 0
      shookEmailInput := true
      focusedEmailInput := true
      announcements := [.invalidEmail]
      buttonDisabled := false
      ariaBusy := false
      buttonLabel := .original
      formHidden := false
      successShown := false
      confettiRun := false
      tracked := none }
  else
    match fetch with
    | .ok =>
        { networkRequests := 1
          shookEmailInput := false
          focusedEmailInput := false
          announcements := [.success]
          buttonDisabled := true
          ariaBusy := true
          buttonLabel := .joining
          formHidden := true
          successShown := true
          confettiRun := !reducedMotion
          tracked := some ("waitlist_signup", (email.data.splitOn '@').getD 1 []) }
    | _ =>
        { networkRequests := 1
          shookEmailInput := false
          focusedEmailInput := false
          announcements := [.submissionError]
          buttonDisabled := false
          ariaBusy := false
          buttonLabel := .original
          formHidden := false
          successShown := false
          confettiRun := false
          tracked := none }

/-! ### Bootstrap (`init`, script.js lines 20-31)

`init` calls the six initializers in a fixed order inside a single
`try { ... } catch (error) { console.error(...) }` block.  An initializer is
modelled by whether it throws; the run is modelled by the list of
initializers actually entered, in order, together with whether the catch
block logged an error.  Execution is sequential and synchronous: a throw
transfers control straight to the catch block. -/

/-- The six initializers invoked by `init`, in source order. -/
inductive InitStep
  | scrollAnimations
  | waitlistForm
  | smoothScroll
  | navbarScroll
  | currentYear
  | keyboardNavigation
  deriving DecidableEq

/-- The call order inside the `try` block. -/
def initOrder : List InitStep :=
  [.scrollAnimations, .waitlistForm, .smoothScroll, .navbarScroll,
   .currentYear, .keyboardNavigation]

/-- Run a sequence of calls inside one `try` block: each step is entered in
order until one throws, which ends the sequence and reaches the `catch`
(second component `true`). -/
def runSeq (throws : InitStep → Bool) : List InitStep → List InitStep × Bool
  | [] => ([], false)
  | s :: rest =>
    if throws s then ([s], true)
    else
      let r := runSeq throws rest
      (s :: r.1, r.2)

/-- `init` (script.js lines 20-31): the initializers entered and whether the
top-level catch logged an error. -/
def initBootstrap (throws : InitStep → Bool) : List InitStep × Bool :=
  runSeq throws initOrder

/-! ### Scroll animations (`initScrollAnimations`, script.js lines 37-77)

A DOM element is modelled by an id, its class list, and the two inline style
properties the fallback path writes.  The observer callback receives a batch
of entries; `entries.forEach((entry, index) => ...)` computes the stagger
delay from `index`, the entry's position in the whole batch. -/

/-- A DOM element as far as `initScrollAnimations` observes or mutates it. -/
structure SElem where
  id : Nat
  classes : List String
  styleOpacity : Option String
  styleTransform : Option String
  deriving DecidableEq

/-- The selector list
`'.problem-item, .feature-card, .method-item, .audience-card, .comparison-col'`. -/
def contentSelectors : List String :=
  ["problem-item", "feature-card", "method-item", "audience-card",
   "comparison-col"]

/-- `element.classList.contains(cls)`. -/
def hasClass (cls : String) (e : SElem) : Bool :=
  e.classes.contains cls

/-- Whether `e` matches the content selector list (and hence would be
tagged and registered for observation on the supported path). -/
def matchesContentSelector (e : SElem) : Bool :=
  contentSelectors.any fun c => hasClass c e

/-- The fallback mutation `el.style.opacity = '1'; el.style.transform = 'none'`. -/
def showNow (e : SElem) : SElem :=
  { e with styleOpacity := some "1", styleTransform := some "none" }

/-- `el.classList.add('animate-on-scroll')` (adds the class if absent). -/
def addAnimClass (e : SElem) : SElem :=
  if hasClass "animate-on-scroll" e then e
  else { e with classes := e.classes ++ ["animate-on-scroll"] }

/-- `initScrollAnimations` (script.js lines 37-77) up to observer
registration: when `IntersectionObserver` is unsupported, every element
currently bearing the class `animate-on-scroll` is shown immediately and
nothing is observed; otherwise every content-selector element is tagged with
`animate-on-scroll` and registered with the observer.  Returns the document
after the synchronous mutations and the ids registered for observation. -/
def initScrollAnimations (ioSupported : Bool) (doc : List SElem) :
    List SElem × List Nat :=
  if !ioSupported then
    (doc.map fun e => if hasClass "animate-on-scroll" e then showNow e else e,
     [])
  else
    (doc.map fun e => if matchesContentSelector e then addAnimClass e else e,
     (doc.filter matchesContentSelector).map SElem.id)

/-- One `IntersectionObserverEntry` of a callback batch. -/
structure IOEntry where
  target : Nat
  isIntersecting : Bool
  deriving DecidableEq

/-- The observer callback body from position `i` of the batch onwards:
for each entry with `isIntersecting`, schedule `classList.add('visible')`
on its target after `Math.min(index * 100, 500)` milliseconds, where
`index` is the entry's position in the whole `entries` array. -/
def processEntriesFrom (i : Nat) : List IOEntry → List (Nat × Nat)
  | [] => []
  | e :: rest =>
    if e.isIntersecting then
      (e.target, min (i * 100) 500) :: processEntriesFrom (i + 1) rest
    else
      processEntriesFrom (i + 1) rest

/-- The observer callback (script.js lines 63-74): the `(target, delay)`
pairs scheduled for one batch of entries. -/
def processEntries (entries : List IOEntry) : List (Nat × Nat) :=
  processEntriesFrom 0 entries

/-! ### Waitlist form initialization (`initWaitlistForm`, lines 82-88) -/

/-- The document state `initWaitlistForm` reads and writes: whether
`getElementById` finds the two elements, and the registered submit
listeners. -/
structure WaitlistDoc where
  formPresent : Bool
  successPresent : Bool
  submitListeners : Nat
  deriving DecidableEq

/-- `initWaitlistForm` (script.js lines 82-88): if either element is
missing, return with the document untouched and no handler attached;
otherwise register `handleFormSubmit` as a submit listener. -/
def initWaitlistForm (doc : WaitlistDoc) : WaitlistDoc × Bool :=
  if !doc.formPresent || !doc.successPresent then (doc, false)
  else ({ doc with submitListeners := doc.submitListeners + 1 }, true)

/-! ### Confetti (`createConfetti`, script.js lines 208-241)

`Math.random()` is modelled as a stream of rationals in `[0, 1)`.  Each
loop iteration draws six values, in evaluation order: `size`
(`Math.random() * 10 + 5`), `duration` (`Math.random() * 2 + 2`), then
within the `cssText` template the color index
(`Math.floor(Math.random() * colors.length)`), the left position
(`Math.random() * 100` vw), the opacity (`Math.random() * 0.7 + 0.3`) and
the shape (`Math.random() > 0.5` picks a circle).  Every node gets
`pointer-events: none`, `aria-hidden="true"` and the `confettiFall`
animation; a single cleanup timeout after 4000 ms removes every node whose
style mentions `confettiFall`. -/

/-- The fixed 4-color palette. -/
def confettiColors : List String :=
  ["#10b981", "#34d399", "#6ee7b7", "#ffffff"]

/-- One spawned confetti node. -/
structure Confetto where
  size : ℚ
  duration : ℚ
  color : String
  leftVW : ℚ
  opacity : ℚ
  circle : Bool
  pointerEventsNone : Bool
  ariaHidden : Bool
  animationConfettiFall : Bool

/-- One loop iteration of `createConfetti`, drawing from the random stream
`r` starting at index `base`. -/
def mkConfetto (r : Nat → ℚ) (base : Nat) : Confetto :=
  { size := r base * 10 + 5
    duration := r (base + 1) * 2 + 2
    color := confettiColors.getD (⌊r (base + 2) * 4⌋).toNat ""
    leftVW := r (base + 3) * 100
    opacity := r (base + 4) * (7 / 10) + 3 / 10
    circle := r (base + 5) > 1 / 2
    pointerEventsNone := true
    ariaHidden := true
    animationConfettiFall := true }

/-- `createConfetti` (script.js lines 208-241): the 50 spawned nodes and the
delay in milliseconds of the cleanup timeout that removes every node whose
style mentions `confettiFall`. -/
def createConfetti (r : Nat → ℚ) : List Confetto × Nat :=
  ((List.range 50).map fun i => mkConfetto r (6 * i), 4000)

/-- A concrete 255-character address of valid shape: 250 `a`s then `@b.co`. -/
def longEmail : String :=
  String.mk (List.replicate 250 'a' ++ ['@', 'b', '.', 'c', 'o'])

/-! ### Claim statements under test

Three claims are stated here as named propositions so that they can be
refuted at a concrete input and then amended. -/

/-- Claim C3 as stated: when an initializer throws, the error is caught and
logged AND every other initializer still runs. -/
def C3ClaimStatement : Prop :=
  ∀ throws : InitStep → Bool, ∀ s ∈ initOrder, throws s = true →
    (initBootstrap throws).2 = true ∧
      ∀ t ∈ initOrder, t ≠ s → t ∈ (initBootstrap throws).1

/-- Claim C5 as stated: the `k`-th entry among the *newly intersecting*
entries of a batch (counted from 0 over the intersecting entries only) is
scheduled with delay `min(k*100, 500)`. -/
def C5ClaimStatement : Prop :=
  ∀ (entries : List IOEntry) (k : Nat) (e : IOEntry),
    (entries.filter fun x => x.isIntersecting)[k]? = some e →
    (processEntries entries)[k]? = some (e.target, min (k * 100) 500)

/-- Claim C9 as stated: with `IntersectionObserver` unavailable, every
element that would otherwise have been registered for observation (i.e.
every content-selector element) is marked visible immediately. -/
def C9ClaimStatement : Prop :=
  ∀ (doc : List SElem) (e : SElem), e ∈ doc → matchesContentSelector e = true →
    showNow e ∈ (initScrollAnimations false doc).1

/-! ## Helper lemmas -/

theorem alnum_isLabelChar {c : Char} (h : c.isAlphanum = true) :
    isLabelChar c = true := by
  simp [isLabelChar, h]

/-- The label regex accepts exactly the spec's labels. -/
theorem labelMatch_iff (l : List Char) : labelMatch l = true ↔ SpecLabel l := by
  cases l with
  | nil => simp [labelMatch, SpecLabel]
  | cons c rest =>
    rcases List.eq_nil_or_concat rest with hr | ⟨mid, d, hr⟩
    · subst hr
      constructor
      · intro h
        simp only [labelMatch, List.isEmpty_nil, Bool.true_or,
          Bool.and_true] at h
        refine ⟨by simp, by simp, ?_, ?_, ?_⟩
        · intro x hx
          rw [List.mem_singleton] at hx
          subst hx
          exact alnum_isLabelChar h
        · intro x hx
          simp only [List.head?_cons, Option.some.injEq] at hx
          subst hx
          exact h
        · intro x hx
          simp only [List.getLast?_singleton, Option.some.injEq] at hx
          subst hx
          exact h
      · rintro ⟨-, -, -, h4, -⟩
        simp only [labelMatch, List.isEmpty_nil, Bool.true_or, Bool.and_true]
        exact h4 c rfl
    · rw [List.concat_eq_append] at hr
      subst hr
      have hlast : (mid ++ [d]).getLast? = some d := List.getLast?_concat _
      have hlast2 : (c :: (mid ++ [d])).getLast? = some d := by
        rw [← List.cons_append, List.getLast?_concat]
      have hempty : (mid ++ [d]).isEmpty = false := by simp
      constructor
      · intro h
        simp only [labelMatch, hempty, hlast, List.dropLast_concat,
          Bool.false_or, Bool.and_eq_true, decide_eq_true_eq,
          List.all_eq_true] at h
        obtain ⟨hc, ⟨⟨hd, hlen⟩, hmid⟩⟩ := h
        refine ⟨by simp, ?_, ?_, ?_, ?_⟩
        · simp only [List.length_cons, List.length_append, List.length_singleton,
            List.length_nil]
          omega
        · intro x hx
          rcases List.mem_cons.1 hx with hx | hx
          · subst hx; exact alnum_isLabelChar hc
          rcases List.mem_append.1 hx with hx | hx
          · exact hmid x hx
          · rw [List.mem_singleton] at hx
            subst hx
            exact alnum_isLabelChar hd
        · intro x hx
          simp only [List.head?_cons, Option.some.injEq] at hx
          subst hx
          exact hc
        · intro x hx
          rw [hlast2, Option.some.injEq] at hx
          subst hx
          exact hd
      · rintro ⟨-, hlen, hchars, hhead, hgetLast⟩
        have hc : c.isAlphanum = true := hhead c rfl
        have hd : d.isAlphanum = true := hgetLast d hlast2
        have hmidlen : mid.length ≤ 61 := by
          simp only [List.length_cons, List.length_append,
            List.length_singleton, List.length_nil] at hlen
          omega
        simp only [labelMatch, hempty, hlast, List.dropLast_concat,
          Bool.false_or, Bool.and_eq_true, decide_eq_true_eq,
          List.all_eq_true]
        exact ⟨hc, ⟨hd, hmidlen⟩, fun x hx =>
          hchars x (List.mem_cons.2 (Or.inr (List.mem_append.2 (Or.inl hx))))⟩

/-- Splitting `loc ++ '@' :: dom` at `'@'` recovers the two halves when
neither half contains `'@'`. -/
theorem splitOn_append_cons {loc dom : List Char} (hloc : '@' ∉ loc)
    (hdom : '@' ∉ dom) : (loc ++ '@' :: dom).splitOn '@' = [loc, dom] := by
  have h1 : ∀ x ∈ loc, ¬(x == '@') = true := by
    intro x hx
    simp only [beq_iff_eq]
    intro hcontra
    exact hloc (hcontra ▸ hx)
  have h2 : ∀ x ∈ dom, ¬(x == '@') = true := by
    intro x hx
    simp only [beq_iff_eq]
    intro hcontra
    exact hdom (hcontra ▸ hx)
  show (loc ++ '@' :: dom).splitOnP (· == '@') = [loc, dom]
  rw [List.splitOnP_first _ _ h1 '@' (by simp), List.splitOnP_eq_single _ _ h2]

/-- A character of `[x].intercalate ls` lies in one of the chunks or is the
separator. -/
theorem mem_intercalate_single {c x : Char} :
    ∀ {ls : List (List Char)}, c ∈ List.intercalate [x] ls →
      (∃ l ∈ ls, c ∈ l) ∨ c = x := by
  intro ls
  induction ls with
  | nil => intro h; simp [List.intercalate] at h
  | cons a t ih =>
    intro h
    cases t with
    | nil =>
      simp only [List.intercalate, List.intersperse_single, List.flatten,
        List.append_nil] at h
      exact Or.inl ⟨a, List.mem_singleton_self a, h⟩
    | cons b t2 =>
      have hstep : List.intercalate [x] (a :: b :: t2) =
          a ++ x :: List.intercalate [x] (b :: t2) := by
        simp [List.intercalate, List.intersperse]
      rw [hstep] at h
      rcases List.mem_append.1 h with h | h
      · exact Or.inl ⟨a, List.mem_cons_self a _, h⟩
      rcases List.mem_cons.1 h with h | h
      · exact Or.inr h
      rcases ih h with ⟨l, hl, hcl⟩ | h
      · exact Or.inl ⟨l, List.mem_cons.2 (Or.inr hl), hcl⟩
      · exact Or.inr h

/-- Characters of a dot-joined list of spec labels are label characters or
dots. -/
theorem mem_intercalate_labels {c : Char} {labels : List (List Char)}
    (hlab : ∀ l ∈ labels, SpecLabel l)
    (hc : c ∈ List.intercalate ['.'] labels) :
    isLabelChar c = true ∨ c = '.' := by
  rcases mem_intercalate_single hc with ⟨l, hl, hcl⟩ | h
  · exact Or.inl ((hlab l hl).2.2.1 c hcl)
  · exact Or.inr h

/-- Structural characterization of the embedded regex test. -/
theorem emailRegexTest_iff (s : List Char) :
    emailRegexTest s = true ↔
      ∃ loc labels, loc ≠ [] ∧ (∀ c ∈ loc, isLocalChar c = true) ∧
        labels ≠ [] ∧ (∀ l ∈ labels, SpecLabel l) ∧
        s = loc ++ '@' :: List.intercalate ['.'] labels := by
  constructor
  · intro h
    unfold emailRegexTest at h
    split at h
    case _ loc dom heq =>
      simp only [Bool.and_eq_true, Bool.not_eq_eq_eq_not, Bool.not_true,
        List.all_eq_true] at h
      obtain ⟨⟨hne, hloc⟩, hdomall⟩ := h
      refine ⟨loc, dom.splitOn '.', ?_, hloc, ?_, ?_, ?_⟩
      · intro hcontra
        subst hcontra
        simp at hne
      · show dom.splitOnP (· == '.') ≠ []
        exact List.splitOnP_ne_nil _ _
      · intro l hl
        exact (labelMatch_iff l).1 (hdomall l hl)
      · have hs : ['@'].intercalate (s.splitOn '@') = s :=
          List.intercalate_splitOn s '@'
        rw [heq] at hs
        have : ['@'].intercalate [loc, dom] = loc ++ '@' :: dom := by
          simp [List.intercalate, List.intersperse]
        rw [this] at hs
        have hdom : ['.'].intercalate (dom.splitOn '.') = dom :=
          List.intercalate_splitOn dom '.'
        rw [← hs, hdom]
    case _ hne =>
      exact absurd h (by simp)
  · rintro ⟨loc, labels, hne, hloc, hlabne, hlab, rfl⟩
    have hatloc : '@' ∉ loc := by
      intro hmem
      have := hloc '@' hmem
      simp [isLocalChar] at this
    have hatdom : '@' ∉ List.intercalate ['.'] labels := by
      intro hmem
      rcases mem_intercalate_labels hlab hmem with h | h
      · simp [isLabelChar] at h
      · exact absurd h (by decide)
    have hsplit := splitOn_append_cons hatloc hatdom
    unfold emailRegexTest
    rw [hsplit]
    show (!loc.isEmpty && loc.all isLocalChar &&
        ((List.intercalate ['.'] labels).splitOn '.').all labelMatch) = true
    have hdotlab : ∀ l ∈ labels, '.' ∉ l := by
      intro l hl hmem
      have := (hlab l hl).2.2.1 '.' hmem
      simp [isLabelChar] at this
    have hback : (List.intercalate ['.'] labels).splitOn '.' = labels :=
      List.splitOn_intercalate labels '.' hdotlab hlabne
    rw [hback]
    simp only [Bool.and_eq_true, Bool.not_eq_eq_eq_not, Bool.not_true,
      List.all_eq_true]
    refine ⟨⟨?_, hloc⟩, ?_⟩
    · cases loc with
      | nil => exact absurd rfl hne
      | cons a l => rfl
    · intro l hl
      exact (labelMatch_iff l).2 (hlab l hl)

/-- Structure of a validated address: exactly one `@`, with a nonempty local
part before it and an `@`-free domain after it. -/
theorem isValidEmail_split {s : String} (h : isValidEmail s = true) :
    ∃ loc dom, s.data.splitOn '@' = [loc, dom] ∧ s.data = loc ++ '@' :: dom ∧
      loc ≠ [] ∧ '@' ∉ dom := by
  have hre : emailRegexTest s.data = true := by
    unfold isValidEmail at h
    rw [Bool.and_eq_true] at h
    exact h.1
  rcases (emailRegexTest_iff s.data).1 hre with
    ⟨loc, labels, hne, hloc, hlabne, hlab, heq⟩
  have hatloc : '@' ∉ loc := by
    intro hm
    have := hloc '@' hm
    simp [isLocalChar] at this
  have hatdom : '@' ∉ List.intercalate ['.'] labels := by
    intro hm
    rcases mem_intercalate_labels hlab hm with h2 | h2
    · simp [isLabelChar] at h2
    · exact absurd h2 (by decide)
  refine ⟨loc, List.intercalate ['.'] labels, ?_, heq, hne, hatdom⟩
  rw [heq]
  exact splitOn_append_cons hatloc hatdom

/-- A valid address is not the empty string. -/
theorem isValidEmail_isEmpty {s : String} (h : isValidEmail s = true) :
    s.isEmpty = false := by
  cases hempty : s.isEmpty
  · rfl
  · exfalso
    rw [String.isEmpty_iff] at hempty
    rw [hempty] at h
    exact absurd h (by decide)

/-- The guard of `handleFormSubmit` is false on a valid trimmed value. -/
theorem submit_guard_false {rawEmail : String}
    (hvalid : isValidEmail (jsTrim rawEmail) = true) :
    ((jsTrim rawEmail).isEmpty || !isValidEmail (jsTrim rawEmail)) = false := by
  rw [isValidEmail_isEmpty hvalid, hvalid]
  rfl

/-- `runSeq` enters the steps before the first throwing one, then the
throwing one, and reaches the catch exactly when some step throws. -/
theorem runSeq_eq (throws : InitStep → Bool) (l : List InitStep) :
    runSeq throws l =
      ((l.takeWhile fun s => !throws s) ++
        (l.dropWhile fun s => !throws s).take 1,
       l.any throws) := by
  induction l with
  | nil => rfl
  | cons s rest ih =>
    cases hs : throws s
    · simp [runSeq, hs, ih, List.takeWhile_cons, List.dropWhile_cons,
        List.any_cons]
    · simp [runSeq, hs, List.takeWhile_cons, List.dropWhile_cons,
        List.any_cons, List.take]

/-- The observer callback from index `i`: the scheduled pairs are the
intersecting entries of the enumerated tail, with delays computed from the
batch index. -/
theorem processEntriesFrom_eq (l : List IOEntry) :
    ∀ i, processEntriesFrom i l =
      ((l.enumFrom i).filter fun p => p.2.isIntersecting).map
        fun p => (p.2.target, min (p.1 * 100) 500) := by
  induction l with
  | nil => intro i; rfl
  | cons e rest ih =>
    intro i
    cases he : e.isIntersecting
    · simp only [processEntriesFrom, he, Bool.false_eq_true, if_false,
        List.enumFrom_cons, List.filter_cons, ih]
    · simp only [processEntriesFrom, he, if_true, List.enumFrom_cons,
        List.filter_cons, List.map_cons, ih]

/-! ## Claims -/

set_option maxRecDepth 10000 in
/-- C1: `isValidEmail` returns true exactly on strings of the shape
`local-part@domain` with a dot-separated sequence of 1-63-character
alphanumeric-with-internal-hyphen labels and total length at most 254; in
particular `a@b.co` is accepted, `not-an-email` is rejected, and the
255-character valid-shaped address `longEmail` is rejected. -/
theorem isValidEmail_matches_spec_shape :
    (∀ s : String, isValidEmail s = true ↔ SpecEmailShape s) ∧
    isValidEmail "a@b.co" = true ∧
    isValidEmail "not-an-email" = false ∧
    longEmail.length = 255 ∧ emailRegexTest longEmail.data = true ∧
    isValidEmail longEmail = false := by
  refine ⟨?_, by decide, by decide, by decide, by decide, by decide⟩
  intro s
  unfold isValidEmail SpecEmailShape
  rw [Bool.and_eq_true, emailRegexTest_iff, decide_eq_true_iff]
  exact ⟨fun h => ⟨h.2, h.1⟩, fun h => ⟨h.2, h.1⟩⟩

/-- C2: a submit whose trimmed email value is empty or rejected by the
validator issues no network request, shakes the input, focuses it,
announces the invalid-email message, and leaves the form in its idle
enabled state (button enabled, not busy, original label, form visible). -/
theorem submit_rejected_no_network (rawEmail : String) (fetch : FetchResult)
    (reducedMotion : Bool)
    (h : jsTrim rawEmail = "" ∨ isValidEmail (jsTrim rawEmail) = false) :
    handleFormSubmit rawEmail fetch reducedMotion =
      { networkRequests := 0
        shookEmailInput := true
        focusedEmailInput := true
        announcements := [.invalidEmail]
        buttonDisabled := false
        ariaBusy := false
        buttonLabel := .original
        formHidden := false
        successShown := false
        confettiRun := false
        tracked := none } := by
  have hcond :
      ((jsTrim rawEmail).isEmpty || !isValidEmail (jsTrim rawEmail)) = true := by
    rcases h with h | h
    · rw [h]; rfl
    · rw [h]; simp
  unfold handleFormSubmit
  simp only [hcond, if_true]

/-- C2 witness: the malformed value `not-an-email` takes the rejection
path. -/
theorem submit_rejected_no_network_witness :
    (jsTrim "not-an-email" = "" ∨
      isValidEmail (jsTrim "not-an-email") = false) ∧
    handleFormSubmit "not-an-email" FetchResult.ok false =
      { networkRequests := 0
        shookEmailInput := true
        focusedEmailInput := true
        announcements := [.invalidEmail]
        buttonDisabled := false
        ariaBusy := false
        buttonLabel := .original
        formHidden := false
        successShown := false
        confettiRun := false
        tracked := none } :=
  ⟨Or.inr (by decide),
    submit_rejected_no_network "not-an-email" .ok false (Or.inr (by decide))⟩

/-- C3 counterexample: with `initScrollAnimations` throwing, the error is
caught and logged, but `initWaitlistForm` (and the rest) never run, so the
claim that a throwing initializer does not prevent the others from running
is false. -/
theorem initBootstrap_claim_false : ¬ C3ClaimStatement := by
  intro h
  have h2 := h (fun t => decide (t = InitStep.scrollAnimations))
    InitStep.scrollAnimations (by decide) (by decide)
  exact absurd (h2.2 InitStep.waitlistForm (by decide) (by decide)) (by decide)

/-- C3 amended: any initializer error is caught by the single top-level
`try/catch` and logged (the error flag is set exactly when some initializer
throws); the initializers strictly before the first throwing one have
already run and are unaffected, the throwing one is entered, and every
initializer after it is skipped. -/
theorem initBootstrap_amended (throws : InitStep → Bool) :
    initBootstrap throws =
      ((initOrder.takeWhile fun s => !throws s) ++
        (initOrder.dropWhile fun s => !throws s).take 1,
       initOrder.any throws) :=
  runSeq_eq throws initOrder

/-- C4: on a failed submission (non-ok response or network error) after a
valid email, the handler performs exactly one network request with no
automatic retry, re-enables the button, clears `aria-busy`, restores the
original label, announces the error, and leaves the form visible (not in
the success state). -/
theorem submit_failure_restores (rawEmail : String) (fetch : FetchResult)
    (reducedMotion : Bool) (hvalid : isValidEmail (jsTrim rawEmail) = true)
    (hfail : fetch ≠ FetchResult.ok) :
    handleFormSubmit rawEmail fetch reducedMotion =
      { networkRequests := 1
        shookEmailInput := false
        focusedEmailInput := false
        announcements := [.submissionError]
        buttonDisabled := false
        ariaBusy := false
        buttonLabel := .original
        formHidden := false
        successShown := false
        confettiRun := false
        tracked := none } := by
  have hcond := submit_guard_false hvalid
  cases fetch
  · exact absurd rfl hfail
  · simp [handleFormSubmit, hcond]
  · simp [handleFormSubmit, hcond]

/-- C4 witness: a network error on submitting `a@b.co`. -/
theorem submit_failure_restores_witness :
    isValidEmail (jsTrim "a@b.co") = true ∧
    FetchResult.networkError ≠ FetchResult.ok ∧
    handleFormSubmit "a@b.co" FetchResult.networkError true =
      { networkRequests := 1
        shookEmailInput := false
        focusedEmailInput := false
        announcements := [.submissionError]
        buttonDisabled := false
        ariaBusy := false
        buttonLabel := .original
        formHidden := false
        successShown := false
        confettiRun := false
        tracked := none } :=
  ⟨by decide, by decide,
    submit_failure_restores "a@b.co" .networkError true (by decide) (by decide)⟩

/-- C5 counterexample: in the batch `[(target 0, not intersecting),
(target 1, intersecting)]` the 0-th intersecting element is scheduled with
delay 100 ms (its index in the whole batch is 1), not
`min(0*100, 500) = 0` as the claim states. -/
theorem processEntries_claim_false : ¬ C5ClaimStatement := by
  intro h
  have := h [⟨0, false⟩, ⟨1, true⟩] 0 ⟨1, true⟩ (by decide)
  exact absurd this (by decide)

/-- C5 amended: the stagger delay of an intersecting element is
`min(i*100, 500)` where `i` is the entry's index within the whole batch
(intersecting or not), i.e. the callback schedules exactly the intersecting
entries of the enumerated batch with batch-index-based delays. -/
theorem processEntries_amended (entries : List IOEntry) :
    processEntries entries =
      (entries.enum.filter fun p => p.2.isIntersecting).map
        fun p => (p.2.target, min (p.1 * 100) 500) :=
  processEntriesFrom_eq entries 0

/-- C6: when the reduced-motion preference is active, no run of
`handleFormSubmit` (on any input and any fetch outcome) ever runs the
confetti effect. -/
theorem confetti_skipped_reduced_motion (rawEmail : String)
    (fetch : FetchResult) :
    (handleFormSubmit rawEmail fetch true).confettiRun = false := by
  cases hcond : ((jsTrim rawEmail).isEmpty || !isValidEmail (jsTrim rawEmail))
  · cases fetch <;> simp [handleFormSubmit, hcond]
  · simp [handleFormSubmit, hcond]

/-- C7: on every successful submission the analytics event is
`waitlist_signup` carrying exactly the domain portion of the submitted
address - the substring after the `@`, which contains no `@` and is
strictly shorter than the full address (the local part is never passed). -/
theorem tracked_domain_only (rawEmail : String) (reducedMotion : Bool)
    (hvalid : isValidEmail (jsTrim rawEmail) = true) :
    ∃ loc dom,
      (jsTrim rawEmail).data = loc ++ '@' :: dom ∧ loc ≠ [] ∧ '@' ∉ dom ∧
      dom.length < (jsTrim rawEmail).data.length ∧
      (handleFormSubmit rawEmail FetchResult.ok reducedMotion).tracked =
        some ("waitlist_signup", dom) := by
  obtain ⟨loc, dom, hsplit, heq, hne, hat⟩ := isValidEmail_split hvalid
  refine ⟨loc, dom, heq, hne, hat, ?_, ?_⟩
  · rw [heq]
    cases loc with
    | nil => exact absurd rfl hne
    | cons a l =>
      simp only [List.length_append, List.length_cons]
      omega
  · have hcond := submit_guard_false hvalid
    unfold handleFormSubmit
    simp only [hcond, Bool.false_eq_true, if_false, hsplit]
    rfl

/-- C7 witness: submitting `a@b.co` tracks only the domain `b.co`. -/
theorem tracked_domain_only_witness :
    isValidEmail (jsTrim "a@b.co") = true ∧
    (∃ loc dom,
      (jsTrim "a@b.co").data = loc ++ '@' :: dom ∧ loc ≠ [] ∧ '@' ∉ dom ∧
      dom.length < (jsTrim "a@b.co").data.length ∧
      (handleFormSubmit "a@b.co" FetchResult.ok false).tracked =
        some ("waitlist_signup", dom)) :=
  ⟨by decide, tracked_domain_only "a@b.co" false (by decide)⟩

/-- C8: for any random stream valued in `[0,1)`, `createConfetti` spawns
exactly 50 nodes, each with size in 5-15 px, fall duration in 2-4 s and
opacity in 0.3-1.0, all `aria-hidden` and non-interactive and carrying the
`confettiFall` animation marker, and the single cleanup that removes every
`confettiFall` node fires 4000 ms after the invocation. -/
theorem createConfetti_spec (r : Nat → ℚ) (hr : ∀ n, 0 ≤ r n ∧ r n < 1) :
    (createConfetti r).1.length = 50 ∧ (createConfetti r).2 = 4000 ∧
    ∀ c ∈ (createConfetti r).1,
      5 ≤ c.size ∧ c.size ≤ 15 ∧ 2 ≤ c.duration ∧ c.duration ≤ 4 ∧
      3 / 10 ≤ c.opacity ∧ c.opacity ≤ 1 ∧ c.ariaHidden = true ∧
      c.pointerEventsNone = true ∧ c.animationConfettiFall = true := by
  refine ⟨by simp [createConfetti], rfl, ?_⟩
  intro c hc
  simp only [createConfetti, List.mem_map, List.mem_range] at hc
  obtain ⟨i, -, rfl⟩ := hc
  obtain ⟨h0, h1⟩ := hr (6 * i)
  obtain ⟨h2, h3⟩ := hr (6 * i + 1)
  obtain ⟨h4, h5⟩ := hr (6 * i + 4)
  refine ⟨?_, ?_, ?_, ?_, ?_, ?_, rfl, rfl, rfl⟩ <;>
    simp only [mkConfetto] <;> nlinarith

/-- C8 witness: the constant stream 0 satisfies the range hypothesis. -/
theorem createConfetti_spec_witness :
    (∀ n : Nat, 0 ≤ (fun _ : Nat => (0 : ℚ)) n ∧
      (fun _ : Nat => (0 : ℚ)) n < 1) ∧
    ((createConfetti fun _ => (0 : ℚ)).1.length = 50 ∧
      (createConfetti fun _ => (0 : ℚ)).2 = 4000 ∧
      ∀ c ∈ (createConfetti fun _ => (0 : ℚ)).1,
        5 ≤ c.size ∧ c.size ≤ 15 ∧ 2 ≤ c.duration ∧ c.duration ≤ 4 ∧
        3 / 10 ≤ c.opacity ∧ c.opacity ≤ 1 ∧ c.ariaHidden = true ∧
        c.pointerEventsNone = true ∧ c.animationConfettiFall = true) :=
  ⟨fun n => by norm_num,
    createConfetti_spec (fun _ => (0 : ℚ)) (fun n => by norm_num)⟩

/-- C9 counterexample: a `feature-card` element without the
`animate-on-scroll` class would be registered for observation on the
supported path, yet the unsupported-path fallback (which selects only
`.animate-on-scroll` elements) leaves it untouched, so the claim that the
fallback covers every would-be-registered element is false. -/
theorem scrollFallback_claim_false : ¬ C9ClaimStatement := by
  intro h
  have := h [⟨0, ["feature-card"], none, none⟩]
    ⟨0, ["feature-card"], none, none⟩ (by decide) (by decide)
  exact absurd this (by decide)

/-- C9 amended: when `IntersectionObserver` is unavailable the function
still returns normally, registers nothing for observation, immediately
marks visible (opacity `1`, transform `none`) exactly the elements already
bearing the `animate-on-scroll` class, and leaves every other element -
including content-selector elements that would otherwise have been
registered - unchanged. -/
theorem scrollFallback_amended (doc : List SElem) :
    (initScrollAnimations false doc).2 = [] ∧
    ∀ (i : Nat) (e : SElem), doc[i]? = some e →
      (hasClass "animate-on-scroll" e = true →
        (initScrollAnimations false doc).1[i]? = some (showNow e)) ∧
      (hasClass "animate-on-scroll" e = false →
        (initScrollAnimations false doc).1[i]? = some e) := by
  refine ⟨rfl, ?_⟩
  intro i e he
  constructor <;> intro hc <;>
    simp [initScrollAnimations, List.getElem?_map, he, hc]

/-- C9 amended witness: one element with the class is shown, one content
element without it is untouched. -/
theorem scrollFallback_amended_witness :
    (([(⟨0, ["animate-on-scroll"], none, none⟩ : SElem)])[0]? =
      some (⟨0, ["animate-on-scroll"], none, none⟩ : SElem)) ∧
    hasClass "animate-on-scroll" (⟨0, ["animate-on-scroll"], none, none⟩ : SElem) = true ∧
    (initScrollAnimations false [(⟨0, ["animate-on-scroll"], none, none⟩ : SElem)]).1[0]? =
      some (showNow (⟨0, ["animate-on-scroll"], none, none⟩ : SElem)) :=
  ⟨rfl, by decide,
    ((scrollFallback_amended [(⟨0, ["animate-on-scroll"], none, none⟩ : SElem)]).2
      0 _ rfl).1 (by decide)⟩

/-- C10: if the waitlist form element or the success panel element is
absent, `initWaitlistForm` returns with the document unchanged and attaches
no submit handler. -/
theorem initWaitlistForm_missing (doc : WaitlistDoc)
    (h : doc.formPresent = false ∨ doc.successPresent = false) :
    initWaitlistForm doc = (doc, false) := by
  rcases h with h | h <;> simp [initWaitlistForm, h]

/-- C10 witness: the form element missing. -/
theorem initWaitlistForm_missing_witness :
    ((⟨false, true, 0⟩ : WaitlistDoc).formPresent = false ∨
      (⟨false, true, 0⟩ : WaitlistDoc).successPresent = false) ∧
    initWaitlistForm ⟨false, true, 0⟩ = (⟨false, true, 0⟩, false) :=
  ⟨Or.inl rfl, initWaitlistForm_missing ⟨false, true, 0⟩ (Or.inl rfl)⟩

end VectorFX
